import Mathlib

/-!
Shallow embedding of the GT-Streamlit territory dashboard (`app.py`):
the classifier `assign_flags`, the distance function `haversine`, the
proximity filter `find_available_cities`, the aggregator
`summarize_by_rep`, and the query filter `filter_data`.

Modelling conventions: strings are lists of characters; pandas missing
values (`NaN` / `NaT` / `None`) are `Option.none`; calendar dates are day
numbers in ℤ, so Python's `(today - assigned_date).days` is integer
subtraction; floating-point coordinates are idealised as real numbers,
except that an arithmetic comparison involving a missing (`NaN`)
coordinate is false, matching IEEE-754 / pandas comparison semantics.
-/

namespace GT

/-- Strings as lists of characters. -/
abbrev Str : Type := List Char

/-- The five values of the derived `Flag` column produced by
`assign_flags` in `app.py`. -/
inductive Flag where
  | blue
  | orange
  | red
  | black
  | purple
deriving DecidableEq

/-- A territory record (one row of the loaded sheet).  Optional fields
model pandas missing values; `flag` is the derived `Flag` column,
`none` before classification. -/
structure Record where
  city : Str
  state : Str
  latitude : Option ℝ
  longitude : Option ℝ
  population : Option ℕ
  rep_assigned : Option Str
  date_assigned : Option ℤ
  sale_entry_date : Option ℤ
  deals : ℕ
  flag : Option Flag

/-- Per-row flag computation of `assign_flags` (`app.py` lines 28–46).
`now` is `datetime.today()` as a day number, so
`days_since_assigned = now - d`. -/
def flagOf (now : ℤ) (r : Record) : Flag :=
  match r.date_assigned with
  | some d =>
      if now - d ≤ 210 then Flag.blue
      else if 210 < now - d ∧ now - d ≤ 270 then Flag.orange
      else if 270 < now - d ∧ r.deals = 0 then Flag.red
      else Flag.black
  | none =>
      match r.rep_assigned with
      | some _ => Flag.black
      | none => Flag.purple

/-- `assign_flags` (`app.py` lines 24–48): recompute the `Flag` column
of every row. -/
def assign_flags (now : ℤ) (data : List Record) : List Record :=
  data.map fun r => { r with flag := some (flagOf now r) }

/-- Unfolding `flagOf` when `date_assigned` is present. -/
theorem flagOf_some (now d : ℤ) (r : Record) (hd : r.date_assigned = some d) :
    flagOf now r =
      if now - d ≤ 210 then Flag.blue
      else if 210 < now - d ∧ now - d ≤ 270 then Flag.orange
      else if 270 < now - d ∧ r.deals = 0 then Flag.red
      else Flag.black := by
  unfold flagOf
  rw [hd]

/-- C3: the classifier's case analysis.  With `assignedDate` present and
`age = now - assignedDate` in days: `age ≤ 210` gives Blue,
`210 < age ≤ 270` gives Orange, `age > 270` with `dealCount = 0` gives
Red, and otherwise Black; with `assignedDate` absent, a present
representative gives Black and an absent one gives Purple. -/
theorem flagOf_cases (now : ℤ) (r : Record) :
    (∀ d, r.date_assigned = some d →
      ((now - d ≤ 210 → flagOf now r = Flag.blue) ∧
       (210 < now - d → now - d ≤ 270 → flagOf now r = Flag.orange) ∧
       (270 < now - d → r.deals = 0 → flagOf now r = Flag.red) ∧
       (270 < now - d → r.deals ≠ 0 → flagOf now r = Flag.black))) ∧
    (r.date_assigned = none → r.rep_assigned ≠ none → flagOf now r = Flag.black) ∧
    (r.date_assigned = none → r.rep_assigned = none → flagOf now r = Flag.purple) := by
  refine ⟨fun d hd => ?_, fun hd hr => ?_, fun hd hr => ?_⟩
  · rw [flagOf_some now d r hd]
    refine ⟨fun h1 => ?_, fun h1 h2 => ?_, fun h1 h2 => ?_, fun h1 h2 => ?_⟩
    · rw [if_pos h1]
    · rw [if_neg (by omega), if_pos ⟨h1, h2⟩]
    · rw [if_neg (by omega), if_neg (by omega), if_pos ⟨h1, h2⟩]
    · rw [if_neg (by omega), if_neg (by omega), if_neg (by tauto)]
  · unfold flagOf
    rw [hd]
    cases hrep : r.rep_assigned with
    | none => exact absurd hrep hr
    | some s => rfl
  · unfold flagOf
    rw [hd, hr]

/-- A concrete instantiation of `flagOf_cases`: a record assigned 100
days ago is Blue. -/
theorem flagOf_cases_witness :
    flagOf 100 ⟨[], [], none, none, none, some ['X'], some 0, none, 2, none⟩ =
      Flag.blue :=
  (((flagOf_cases 100 ⟨[], [], none, none, none, some ['X'], some 0, none, 2, none⟩).1
      0 rfl).1) (by omega)

/-- `flagOf` ignores the `flag` field: classification reads only
`date_assigned`, `rep_assigned` and `deals`. -/
theorem flagOf_setFlag (now : ℤ) (r : Record) (f : Option Flag) :
    flagOf now { r with flag := f } = flagOf now r := rfl

/-- C8: classification is idempotent.  Re-running `assign_flags` with
the same `now` on an already-classified record set yields the same
`Flag` for every record. -/
theorem assign_flags_idempotent (now : ℤ) (data : List Record) :
    assign_flags now (assign_flags now data) = assign_flags now data := by
  unfold assign_flags
  rw [List.map_map]
  apply List.map_congr_left
  intro r _
  simp only [Function.comp_apply, flagOf_setFlag]

/-- Python's `math.radians`. -/
noncomputable def radians (x : ℝ) : ℝ := x * Real.pi / 180

/-- Python's `math.atan2 y x` on real numbers (standard quadrant-aware
arctangent; `atan2 0 0 = 0` as in CPython). -/
noncomputable def atan2 (y x : ℝ) : ℝ :=
  if 0 < x then Real.arctan (y / x)
  else if x < 0 ∧ 0 ≤ y then Real.arctan (y / x) + Real.pi
  else if x < 0 ∧ y < 0 then Real.arctan (y / x) - Real.pi
  else if x = 0 ∧ 0 < y then Real.pi / 2
  else if x = 0 ∧ y < 0 then -(Real.pi / 2)
  else 0

/-- `haversine` exactly as written in `app.py` lines 51–57.  Note the
source computes `dlon = radians(lat2 - lon1)`, a latitude minus a
longitude. -/
noncomputable def haversine (lat1 lon1 lat2 lon2 : ℝ) : ℝ :=
  let R : ℝ := 3958.8
  let dlat := radians (lat2 - lat1)
  let dlon := radians (lat2 - lon1)
  let a := Real.sin (dlat / 2) ^ 2 +
    Real.cos (radians lat1) * Real.cos (radians lat2) * Real.sin (dlon / 2) ^ 2
  let c := 2 * atan2 (Real.sqrt a) (Real.sqrt (1 - a))
  R * c

/-- Modelled from the spec: the mathematically standard haversine
formula the spec prescribes, with `Δlon = lon2 - lon1` (`spec.md` §4.2);
it is the comparison point for the formula actually in the source. -/
noncomputable def haversine_std (lat1 lon1 lat2 lon2 : ℝ) : ℝ :=
  let R : ℝ := 3958.8
  let dlat := radians (lat2 - lat1)
  let dlon := radians (lon2 - lon1)
  let a := Real.sin (dlat / 2) ^ 2 +
    Real.cos (radians lat1) * Real.cos (radians lat2) * Real.sin (dlon / 2) ^ 2
  let c := 2 * atan2 (Real.sqrt a) (Real.sqrt (1 - a))
  R * c

/-- `atan2` of equal positive arguments is π/4. -/
theorem atan2_self_pos (t : ℝ) (ht : 0 < t) : atan2 t t = Real.pi / 4 := by
  unfold atan2
  rw [if_pos ht, div_self (ne_of_gt ht), Real.arctan_one]

/-- `atan2 0 1 = 0`. -/
theorem atan2_zero_one : atan2 0 1 = 0 := by
  unfold atan2
  rw [if_pos (by norm_num : (0:ℝ) < 1)]
  norm_num [Real.arctan_zero]

/-- C1: the distance function is not the standard haversine.  At the
equatorial points (0°, 0°) and (0°, 90°) the source's `haversine`
returns 0 miles, while the standard formula with `Δlon = lon2 - lon1`
returns `3958.8·π/2` miles (a quarter of the circumference); the two
functions disagree because the source computes `dlon` from
`lat2 - lon1`. -/
theorem haversine_dlon_bug :
    haversine 0 0 0 90 = 0 ∧
    haversine_std 0 0 0 90 = 3958.8 * (Real.pi / 2) ∧
    haversine 0 0 0 90 ≠ haversine_std 0 0 0 90 := by
  have hpi : 0 < Real.pi := Real.pi_pos
  have hcode : haversine 0 0 0 90 = 0 := by
    unfold haversine
    have h0 : radians (0 - 0) = 0 := by unfold radians; ring
    have h0' : radians 0 = 0 := by unfold radians; ring
    rw [h0, h0']
    norm_num [Real.sin_zero, Real.cos_zero, Real.sqrt_zero, Real.sqrt_one,
      atan2_zero_one]
  have hstd : haversine_std 0 0 0 90 = 3958.8 * (Real.pi / 2) := by
    unfold haversine_std
    simp only []
    have h0 : radians (0 - 0) = 0 := by unfold radians; ring
    have h0' : radians 0 = 0 := by unfold radians; ring
    have h90 : radians (90 - 0) / 2 = Real.pi / 4 := by unfold radians; ring
    rw [h0, h0', h90]
    have hs : Real.sin (Real.pi / 4) ^ 2 = 1 / 2 := by
      rw [Real.sin_pi_div_four]
      rw [div_pow, Real.sq_sqrt (by norm_num : (0:ℝ) ≤ 2)]
      norm_num
    norm_num [Real.sin_zero, Real.cos_zero, hs]
    have h2 : (Real.sqrt 2 / 2 : ℝ) ^ 2 = 1 / 2 := by
      rw [div_pow, Real.sq_sqrt (by norm_num : (0:ℝ) ≤ 2)]
      norm_num
    have hhalf : (1 : ℝ) - 1 / 2 = 1 / 2 := by norm_num
    have hpos : 0 < Real.sqrt (1 / 2) := Real.sqrt_pos.mpr (by norm_num)
    rw [h2, hhalf, atan2_self_pos _ hpos]
    ring
  refine ⟨hcode, hstd, ?_⟩
  rw [hcode, hstd]
  intro h
  have : 0 < 3958.8 * (Real.pi / 2) := by positivity
  linarith

/-- `data[data["Rep Assigned"].notna()]` (`app.py` line 61). -/
def assignedOf (data : List Record) : List Record :=
  data.filter fun r => decide (r.rep_assigned ≠ none)

/-- `data[data["Rep Assigned"].isna()]` (`app.py` line 62). -/
def unassignedOf (data : List Record) : List Record :=
  data.filter fun r => decide (r.rep_assigned = none)

/-- The `distance <= 7` test of `app.py` line 72 for one pair of rows.
When any of the four coordinates is missing, the pandas value is `NaN`,
the computed distance is `NaN`, and the IEEE comparison `NaN <= 7` is
false; hence the catch-all arm is `False`. -/
def tooClosePair (u a : Record) : Prop :=
  match u.latitude, u.longitude, a.latitude, a.longitude with
  | some lat1, some lon1, some lat2, some lon2 => haversine lat1 lon1 lat2 lon2 ≤ 7
  | _, _, _, _ => False

/-- The distance between two rows, defined when all four coordinates are
present. -/
noncomputable def pairDist (u a : Record) : Option ℝ :=
  match u.latitude, u.longitude, a.latitude, a.longitude with
  | some lat1, some lon1, some lat2, some lon2 => some (haversine lat1 lon1 lat2 lon2)
  | _, _, _, _ => none

open Classical in
/-- `find_available_cities` (`app.py` lines 60–78): keep each unassigned
row unless some assigned row is within 7 miles of it. -/
noncomputable def find_available_cities (data : List Record) : List Record :=
  (unassignedOf data).filter fun u =>
    ! decide (∃ a ∈ assignedOf data, tooClosePair u a)

/-- Membership in the proximity filter's result. -/
theorem mem_find_available (data : List Record) (u : Record) :
    u ∈ find_available_cities data ↔
      u ∈ data ∧ u.rep_assigned = none ∧
        ∀ a ∈ assignedOf data, ¬ tooClosePair u a := by
  unfold find_available_cities unassignedOf
  rw [List.mem_filter, List.mem_filter]
  constructor
  · rintro ⟨⟨hmem, hrep⟩, hfar⟩
    refine ⟨hmem, by simpa using hrep, ?_⟩
    intro a ha hc
    rw [Bool.not_eq_true', decide_eq_false_iff_not] at hfar
    exact hfar ⟨a, ha, hc⟩
  · rintro ⟨hmem, hrep, hfar⟩
    refine ⟨⟨hmem, by simpa using hrep⟩, ?_⟩
    rw [Bool.not_eq_true', decide_eq_false_iff_not]
    rintro ⟨a, ha, hc⟩
    exact hfar a ha hc

/-- `tooClosePair` when all coordinates are present. -/
theorem tooClosePair_some {u a : Record} {x1 y1 x2 y2 : ℝ}
    (h1 : u.latitude = some x1) (h2 : u.longitude = some y1)
    (h3 : a.latitude = some x2) (h4 : a.longitude = some y2) :
    tooClosePair u a ↔ haversine x1 y1 x2 y2 ≤ 7 := by
  unfold tooClosePair
  rw [h1, h2, h3, h4]

/-- `pairDist` when all coordinates are present. -/
theorem pairDist_some {u a : Record} {x1 y1 x2 y2 : ℝ}
    (h1 : u.latitude = some x1) (h2 : u.longitude = some y1)
    (h3 : a.latitude = some x2) (h4 : a.longitude = some y2) :
    pairDist u a = some (haversine x1 y1 x2 y2) := by
  unfold pairDist
  rw [h1, h2, h3, h4]

/-- `tooClosePair` is false when the unassigned row misses a coordinate. -/
theorem tooClosePair_missing {u : Record} (a : Record)
    (h : u.latitude = none ∨ u.longitude = none) : ¬ tooClosePair u a := by
  unfold tooClosePair
  rcases h with h | h <;> rw [h]
  · intro hc
    cases hlon : u.longitude <;> rw [hlon] at hc <;>
      cases a.latitude <;> cases a.longitude <;> exact hc
  · intro hc
    cases hlat : u.latitude <;> rw [hlat] at hc <;>
      cases a.latitude <;> cases a.longitude <;> exact hc

/-- C2: for a record set whose rows all carry coordinates, an unassigned
record is returned by `find_available_cities` iff its distance to every
assigned record strictly exceeds 7 miles; vacuously every unassigned
record is returned when no record is assigned, and a record at distance
exactly 7 from some assigned record is not returned. -/
theorem find_available_iff (data : List Record) (u : Record)
    (hmem : u ∈ data) (hrep : u.rep_assigned = none)
    (hcoords : ∀ r ∈ data, r.latitude ≠ none ∧ r.longitude ≠ none) :
    (u ∈ find_available_cities data ↔
      ∀ a ∈ assignedOf data, ∀ dst, pairDist u a = some dst → 7 < dst) ∧
    (assignedOf data = [] → u ∈ find_available_cities data) ∧
    (∀ a ∈ assignedOf data, pairDist u a = some 7 →
      u ∉ find_available_cities data) := by
  obtain ⟨x1, hx1⟩ := Option.ne_none_iff_exists'.mp (hcoords u hmem).1
  obtain ⟨y1, hy1⟩ := Option.ne_none_iff_exists'.mp (hcoords u hmem).2
  have key : u ∈ find_available_cities data ↔
      ∀ a ∈ assignedOf data, ∀ dst, pairDist u a = some dst → 7 < dst := by
    rw [mem_find_available]
    constructor
    · rintro ⟨-, -, hfar⟩ a ha dst hdst
      have hamem : a ∈ data := List.mem_of_mem_filter ha
      obtain ⟨x2, hx2⟩ := Option.ne_none_iff_exists'.mp (hcoords a hamem).1
      obtain ⟨y2, hy2⟩ := Option.ne_none_iff_exists'.mp (hcoords a hamem).2
      rw [pairDist_some hx1 hy1 hx2 hy2] at hdst
      have := hfar a ha
      rw [tooClosePair_some hx1 hy1 hx2 hy2] at this
      have h7 := lt_of_not_le this
      rw [Option.some_inj] at hdst
      rw [← hdst]
      exact h7
    · intro hfar
      refine ⟨hmem, hrep, ?_⟩
      intro a ha hc
      have hamem : a ∈ data := List.mem_of_mem_filter ha
      obtain ⟨x2, hx2⟩ := Option.ne_none_iff_exists'.mp (hcoords a hamem).1
      obtain ⟨y2, hy2⟩ := Option.ne_none_iff_exists'.mp (hcoords a hamem).2
      rw [tooClosePair_some hx1 hy1 hx2 hy2] at hc
      exact absurd hc (not_le.mpr
        (hfar a ha _ (pairDist_some hx1 hy1 hx2 hy2)))
  refine ⟨key, fun hempty => ?_, fun a ha h7 hin => ?_⟩
  · rw [key, hempty]
    intro a ha
    exact absurd ha (List.not_mem_nil a)
  · exact absurd (key.mp hin a ha 7 h7) (lt_irrefl 7)

/-- A one-record concrete data set used to instantiate `find_available_iff`. -/
def recSolo : Record :=
  ⟨['s'], ['a'], some 0, some 0, none, none, none, none, 0, none⟩

/-- Witness for C2 at a concrete input: a single unassigned record with
coordinates, where the assigned partition is empty. -/
theorem find_available_iff_witness :
    (recSolo ∈ find_available_cities [recSolo] ↔
      ∀ a ∈ assignedOf [recSolo], ∀ dst, pairDist recSolo a = some dst → 7 < dst) ∧
    (assignedOf [recSolo] = [] → recSolo ∈ find_available_cities [recSolo]) ∧
    (∀ a ∈ assignedOf [recSolo], pairDist recSolo a = some 7 →
      recSolo ∉ find_available_cities [recSolo]) := by
  refine find_available_iff [recSolo] recSolo (List.mem_singleton.mpr rfl) rfl ?_
  intro r hr
  rw [List.mem_singleton.mp hr]
  exact ⟨by simp [recSolo], by simp [recSolo]⟩

/-- A concrete assigned record at the origin with both coordinates. -/
def recAssignedOrigin : Record :=
  ⟨['x'], ['a'], some 0, some 0, none, some ['X'], none, none, 0, none⟩

/-- A concrete unassigned record with a missing latitude. -/
def recNoLat : Record :=
  ⟨['u'], ['a'], none, some 0, none, none, none, none, 0, none⟩

/-- C4 counterexample: with one assigned record present, an unassigned
record with a missing latitude is nevertheless returned by
`find_available_cities`, so records with missing coordinates are not
excluded from the result. -/
theorem missing_coord_not_excluded :
    recNoLat.latitude = none ∧
    recNoLat ∈ find_available_cities [recAssignedOrigin, recNoLat] := by
  refine ⟨rfl, ?_⟩
  rw [mem_find_available]
  refine ⟨by simp, rfl, ?_⟩
  intro a _
  exact tooClosePair_missing a (Or.inl rfl)

/-- C4 amended: a missing coordinate makes every distance comparison
false, so an unassigned record with a missing latitude or longitude is
always in the returned available set, whatever the assigned records are. -/
theorem missing_coord_always_available (data : List Record) (u : Record)
    (hmem : u ∈ data) (hrep : u.rep_assigned = none)
    (hcoord : u.latitude = none ∨ u.longitude = none) :
    u ∈ find_available_cities data := by
  rw [mem_find_available]
  exact ⟨hmem, hrep, fun a _ => tooClosePair_missing a hcoord⟩

/-- A concrete unassigned record with a missing longitude. -/
def recNoLon : Record :=
  ⟨['v'], ['a'], some 1, none, none, none, none, none, 0, none⟩

/-- Witness for the amended C4 at a concrete input. -/
theorem missing_coord_always_available_witness :
    recNoLon ∈ find_available_cities [recAssignedOrigin, recNoLon] :=
  missing_coord_always_available [recAssignedOrigin, recNoLon] recNoLon
    (by simp) rfl (Or.inr rfl)

/-- The rows grouped under one representative by
`data.groupby('Rep Assigned')` (`app.py` line 82); pandas `groupby`
drops `NaN` keys, so only rows whose `Rep Assigned` equals the given
name are grouped. -/
def repRecords (data : List Record) (rep : Str) : List Record :=
  data.filter fun r => decide (r.rep_assigned = some rep)

/-- How many of a representative's rows carry a given flag. -/
def flagCount (data : List Record) (rep : Str) (f : Flag) : ℕ :=
  (repRecords data rep).countP fun r => decide (r.flag = some f)

/-- All five flag values, the possible columns before `reindex`. -/
def allFlags : List Flag := [Flag.blue, Flag.orange, Flag.red, Flag.black, Flag.purple]

/-- `value_counts().unstack(fill_value=0)` for one group: the columns
that actually occur among the group's flags, each with its count. -/
def valueCounts (rs : List Record) : List (Flag × ℕ) :=
  (allFlags.filter fun f => rs.any fun r => decide (r.flag = some f)).map
    fun f => (f, rs.countP fun r => decide (r.flag = some f))

/-- Column lookup after `reindex(columns=..., fill_value=0)`: a column
absent from the unstacked table reads as 0. -/
def lookupZero (m : List (Flag × ℕ)) (f : Flag) : ℕ :=
  match m.find? (fun p => decide (p.1 = f)) with
  | some p => p.2
  | none => 0

/-- One row of the summary table: the four reindexed category columns
and the `Total` column. -/
structure SummaryRow where
  blue : ℕ
  orange : ℕ
  red : ℕ
  black : ℕ
  total : ℕ
deriving DecidableEq

/-- `summarize_by_rep` (`app.py` lines 81–85), one representative's row:
group, count flag values, reindex to the four category columns with
fill value 0, and sum those columns into `Total`. -/
def summarize_by_rep (data : List Record) (rep : Str) : SummaryRow :=
  let m := valueCounts (repRecords data rep)
  let b := lookupZero m Flag.blue
  let o := lookupZero m Flag.orange
  let r := lookupZero m Flag.red
  let k := lookupZero m Flag.black
  ⟨b, o, r, k, b + o + r + k⟩

/-- `find?` of an equality test over a list of flags. -/
theorem find_eq_self (l : List Flag) (f : Flag) :
    l.find? (fun x => decide (x = f)) = if f ∈ l then some f else none := by
  induction l with
  | nil => simp
  | cons c cs ih =>
    by_cases hc : c = f
    · subst hc
      simp [List.find?]
    · rw [List.find?]
      rw [decide_eq_false hc]
      rw [ih]
      have hfc : ¬ f = c := fun hfc => hc hfc.symm
      simp [List.mem_cons, hfc]

/-- Reading a column of the unstacked-and-reindexed table gives exactly
the count of rows with that flag, with absent columns reading as 0. -/
theorem lookupZero_valueCounts (rs : List Record) (f : Flag) :
    lookupZero (valueCounts rs) f =
      rs.countP fun r => decide (r.flag = some f) := by
  unfold lookupZero valueCounts
  rw [List.find?_map]
  have hmem : ∀ g : Flag, g ∈ allFlags := by
    intro g
    cases g <;> simp [allFlags]
  have hcomp : ((fun p : Flag × ℕ => decide (p.1 = f)) ∘
      fun g => (g, rs.countP fun r => decide (r.flag = some g))) =
      fun x => decide (x = f) := rfl
  rw [hcomp, find_eq_self]
  by_cases hocc : rs.any fun r => decide (r.flag = some f)
  · rw [if_pos (by rw [List.mem_filter]; exact ⟨hmem f, hocc⟩)]
    rfl
  · rw [if_neg (by rw [List.mem_filter]; tauto)]
    simp only [Option.map_none']
    symm
    rw [List.countP_eq_zero]
    intro r hr
    simp only [List.any_eq_true, not_exists] at hocc
    push_neg at hocc
    exact hocc r hr

/-- Appending a row with no representative leaves every group unchanged. -/
theorem repRecords_none (data : List Record) (rep : Str) (r : Record)
    (h : r.rep_assigned = none) :
    repRecords (r :: data) rep = repRecords data rep := by
  unfold repRecords
  rw [List.filter_cons]
  rw [h]
  simp

/-- C7: each of the four category columns of a representative's summary
row equals that representative's count of the corresponding flag (so a
missing category reads as 0 rather than being omitted), `Total` is the
row-wise sum of exactly those four columns, and a record with no
representative is attributed to no representative's row. -/
theorem summarize_by_rep_spec (data : List Record) (rep : Str) (r : Record)
    (h : r.rep_assigned = none) :
    (summarize_by_rep data rep).blue = flagCount data rep Flag.blue ∧
    (summarize_by_rep data rep).orange = flagCount data rep Flag.orange ∧
    (summarize_by_rep data rep).red = flagCount data rep Flag.red ∧
    (summarize_by_rep data rep).black = flagCount data rep Flag.black ∧
    (summarize_by_rep data rep).total =
      (summarize_by_rep data rep).blue + (summarize_by_rep data rep).orange +
      (summarize_by_rep data rep).red + (summarize_by_rep data rep).black ∧
    summarize_by_rep (r :: data) rep = summarize_by_rep data rep := by
  refine ⟨?_, ?_, ?_, ?_, rfl, ?_⟩
  · exact lookupZero_valueCounts (repRecords data rep) Flag.blue
  · exact lookupZero_valueCounts (repRecords data rep) Flag.orange
  · exact lookupZero_valueCounts (repRecords data rep) Flag.red
  · exact lookupZero_valueCounts (repRecords data rep) Flag.black
  · unfold summarize_by_rep
    rw [repRecords_none data rep r h]

/-- A concrete flagged record assigned to representative `X`. -/
def recFlaggedX : Record :=
  ⟨['c'], ['a'], none, none, none, some ['X'], some 0, none, 0, some Flag.blue⟩

/-- A concrete record with no representative and no flag. -/
def recUnassignedPlain : Record :=
  ⟨['d'], ['a'], none, none, none, none, none, none, 0, some Flag.purple⟩

/-- Witness for C7 at a concrete input. -/
theorem summarize_by_rep_spec_witness :
    (summarize_by_rep [recFlaggedX] ['X']).blue =
      flagCount [recFlaggedX] ['X'] Flag.blue ∧
    (summarize_by_rep [recFlaggedX] ['X']).orange =
      flagCount [recFlaggedX] ['X'] Flag.orange ∧
    (summarize_by_rep [recFlaggedX] ['X']).red =
      flagCount [recFlaggedX] ['X'] Flag.red ∧
    (summarize_by_rep [recFlaggedX] ['X']).black =
      flagCount [recFlaggedX] ['X'] Flag.black ∧
    (summarize_by_rep [recFlaggedX] ['X']).total =
      (summarize_by_rep [recFlaggedX] ['X']).blue +
      (summarize_by_rep [recFlaggedX] ['X']).orange +
      (summarize_by_rep [recFlaggedX] ['X']).red +
      (summarize_by_rep [recFlaggedX] ['X']).black ∧
    summarize_by_rep (recUnassignedPlain :: [recFlaggedX]) ['X'] =
      summarize_by_rep [recFlaggedX] ['X'] :=
  summarize_by_rep_spec [recFlaggedX] ['X'] recUnassignedPlain rfl

/-- A record with a representative is never classified Purple: with an
assignment date it gets one of the four dated categories, and without
one the `elif pd.notna(rep_assigned)` branch gives Black. -/
theorem flagOf_ne_purple (now : ℤ) (r : Record) (h : r.rep_assigned ≠ none) :
    flagOf now r ≠ Flag.purple := by
  cases hd : r.date_assigned with
  | some d =>
    rw [flagOf_some now d r hd]
    split
    · intro hc
      exact Flag.noConfusion hc
    · split
      · intro hc
        exact Flag.noConfusion hc
      · split <;> intro hc <;> exact Flag.noConfusion hc
  | none =>
    have hrw : flagOf now r = match r.rep_assigned with
        | some _ => Flag.black
        | none => Flag.purple := by
      unfold flagOf
      rw [hd]
    rw [hrw]
    cases hr : r.rep_assigned with
    | none => exact absurd hr h
    | some s => exact fun hc => Flag.noConfusion hc

/-- A list of records whose flags all lie in the four assigned
categories is exhausted by the four per-flag counts. -/
theorem countP_four_flags (l : List Record)
    (h : ∀ r ∈ l, ∃ f, r.flag = some f ∧ f ≠ Flag.purple) :
    (l.countP fun r => decide (r.flag = some Flag.blue)) +
    (l.countP fun r => decide (r.flag = some Flag.orange)) +
    (l.countP fun r => decide (r.flag = some Flag.red)) +
    (l.countP fun r => decide (r.flag = some Flag.black)) = l.length := by
  induction l with
  | nil => simp
  | cons a l ih =>
    obtain ⟨f, hf, hfp⟩ := h a (List.mem_cons_self a l)
    have ihl := ih fun r hr => h r (List.mem_cons_of_mem a hr)
    cases f with
    | purple => exact absurd rfl hfp
    | blue => simp [List.countP_cons, hf]; omega
    | orange => simp [List.countP_cons, hf]; omega
    | red => simp [List.countP_cons, hf]; omega
    | black => simp [List.countP_cons, hf]; omega

/-- C9: a classified record with a representative carries one of the
four assigned categories, never Purple; consequently, on a classified
record set, a representative's `Total` equals the number of records
grouped under that representative. -/
theorem rep_total_counts_all (now : ℤ) (r : Record) (s : Str)
    (h : r.rep_assigned = some s) (data : List Record) (rep : Str) :
    flagOf now r ≠ Flag.purple ∧
    (summarize_by_rep (assign_flags now data) rep).total =
      (repRecords (assign_flags now data) rep).length := by
  constructor
  · exact flagOf_ne_purple now r (by rw [h]; exact fun hc => Option.noConfusion hc)
  · have hall : ∀ q ∈ repRecords (assign_flags now data) rep,
        ∃ f, q.flag = some f ∧ f ≠ Flag.purple := by
      intro q hq
      rw [repRecords, List.mem_filter] at hq
      obtain ⟨hqmem, hqrep⟩ := hq
      rw [assign_flags, List.mem_map] at hqmem
      obtain ⟨r0, _, hr0⟩ := hqmem
      refine ⟨flagOf now r0, by rw [← hr0], ?_⟩
      apply flagOf_ne_purple
      have hqr : q.rep_assigned = r0.rep_assigned := by rw [← hr0]
      rw [decide_eq_true_eq] at hqrep
      rw [← hqr, hqrep]
      exact fun hc => Option.noConfusion hc
    show lookupZero _ Flag.blue + lookupZero _ Flag.orange +
      lookupZero _ Flag.red + lookupZero _ Flag.black = _
    rw [lookupZero_valueCounts, lookupZero_valueCounts,
      lookupZero_valueCounts, lookupZero_valueCounts]
    exact countP_four_flags _ hall

/-- Witness for C9 at a concrete input. -/
theorem rep_total_counts_all_witness :
    flagOf 0 recFlaggedX ≠ Flag.purple ∧
    (summarize_by_rep (assign_flags 0 [recFlaggedX]) ['X']).total =
      (repRecords (assign_flags 0 [recFlaggedX]) ['X']).length :=
  rep_total_counts_all 0 recFlaggedX ['X'] rfl [recFlaggedX] ['X']

/-- Does `hay` start with `needle`? -/
def matchesFront : Str → Str → Bool
  | [], _ => true
  | _ :: _, [] => false
  | a :: as, b :: bs => a == b && matchesFront as bs

/-- Does `needle` occur contiguously inside `hay`? -/
def occursIn (needle : Str) : Str → Bool
  | [] => needle.isEmpty
  | c :: cs => matchesFront needle (c :: cs) || occursIn needle cs

/-- The regex metacharacters of Python's `re` module.  `str.contains`
interprets its pattern as a regular expression (`regex=True` default),
so only patterns free of these characters are matched literally;
patterns containing them get regex semantics (or raise `re.error` when
invalid) and are outside this embedding. -/
def regexMetachars : Str :=
  ['.', '^', '$', '*', '+', '?', '\x7b', '\x7d', '[', ']', '\\', '|', '(', ')']

/-- A pattern the `re` module matches literally: no regex
metacharacters. -/
def isLiteralPat (q : Str) : Bool :=
  q.all fun c => ! regexMetachars.contains c

/-- pandas `Series.str.contains(needle, case=False)` on a present
value, restricted to the literal fragment: for a pattern with no regex
metacharacters (`isLiteralPat`), `re.search` with `re.IGNORECASE` is
case-insensitive substring containment.  Patterns with metacharacters
have regex semantics — or abort with `re.error` — and are not modelled;
every statement about searching carries an `isLiteralPat` bound. -/
def containsCI (hay needle : Str) : Bool :=
  occursIn (needle.map Char.toLower) (hay.map Char.toLower)

/-- The string pandas `astype(str)` produces for a missing value. -/
def nanStr : Str := ['n', 'a', 'n']

/-- `data["Rep Assigned"].astype(str)` for one row: a missing
representative is stringified as `"nan"`. -/
def repAsStr (o : Option Str) : Str :=
  match o with
  | some s => s
  | none => nanStr

/-- The row test of `data["Population"] >= min_population`
(`app.py` line 89): a missing population compares `NaN >= m`, which is
false for every `m`. -/
def popOk (r : Record) (minPop : ℕ) : Bool :=
  match r.population with
  | some p => decide (minPop ≤ p)
  | none => false

/-- The disjunctive row test of the search filter
(`app.py` lines 91–95), on the literal fragment of `containsCI`. -/
def searchMatch (q : Str) (r : Record) : Bool :=
  containsCI r.city q || containsCI r.state q || containsCI (repAsStr r.rep_assigned) q

/-- `data[data["State"].isin(states) & (data["Population"] >= min_population)]`
(`app.py` line 89). -/
def stateAndPop (states : List Str) (minPop : ℕ) (data : List Record) : List Record :=
  data.filter fun r => decide (r.state ∈ states) && popOk r minPop

/-- `if search_query: ...` (`app.py` lines 90–95); an empty query string
is falsy in Python, so the search filter is skipped. -/
def searchStage (q : Str) (data : List Record) : List Record :=
  if q.isEmpty then data else data.filter (searchMatch q)

/-- `if selected_rep: ...` (`app.py` lines 96–97); `None` and the empty
string are falsy. -/
def repStage (selRep : Option Str) (data : List Record) : List Record :=
  match selRep with
  | some s => if s.isEmpty then data else data.filter fun r => decide (r.rep_assigned = some s)
  | none => data

/-- `if selected_flag: ...` (`app.py` lines 98–99). -/
def flagStage (selFlag : Option Flag) (data : List Record) : List Record :=
  match selFlag with
  | some f => data.filter fun r => decide (r.flag = some f)
  | none => data

/-- `filter_data` (`app.py` lines 88–100): the four filter stages in
source order. -/
def filter_data (data : List Record) (states : List Str) (q : Str)
    (selRep : Option Str) (selFlag : Option Flag) (minPop : ℕ) : List Record :=
  flagStage selFlag (repStage selRep (searchStage q (stateAndPop states minPop data)))

/-- Each later stage only discards rows. -/
theorem mem_of_flagStage {selFlag : Option Flag} {d : List Record} {r : Record}
    (h : r ∈ flagStage selFlag d) : r ∈ d := by
  unfold flagStage at h
  cases selFlag with
  | none => exact h
  | some f => exact List.mem_of_mem_filter h

/-- `repStage` only discards rows. -/
theorem mem_of_repStage {selRep : Option Str} {d : List Record} {r : Record}
    (h : r ∈ repStage selRep d) : r ∈ d := by
  unfold repStage at h
  cases selRep with
  | none => exact h
  | some s =>
    have h' : r ∈ if s.isEmpty then d
        else d.filter fun r => decide (r.rep_assigned = some s) := h
    by_cases hs : s.isEmpty
    · rwa [if_pos hs] at h'
    · rw [if_neg hs] at h'
      exact List.mem_of_mem_filter h'

/-- `searchStage` only discards rows. -/
theorem mem_of_searchStage {q : Str} {d : List Record} {r : Record}
    (h : r ∈ searchStage q d) : r ∈ d := by
  unfold searchStage at h
  by_cases hq : q.isEmpty
  · rwa [if_pos hq] at h
  · rw [if_neg hq] at h
    exact List.mem_of_mem_filter h

/-- C10: with an empty region selection, the query filter returns no
records regardless of the other arguments, because
`State.isin([])` holds of no row. -/
theorem filter_data_empty_states (data : List Record) (q : Str)
    (selRep : Option Str) (selFlag : Option Flag) (minPop : ℕ) :
    filter_data data [] q selRep selFlag minPop = [] := by
  unfold filter_data
  have h1 : stateAndPop [] minPop data = [] := by
    unfold stateAndPop
    rw [List.filter_eq_nil_iff]
    intro r _
    simp
  rw [h1]
  have h2 : ∀ q', searchStage q' [] = [] := by
    intro q'
    simp [searchStage]
  rw [h2]
  have h3 : ∀ s', repStage s' [] = [] := by
    intro s'
    cases s' <;> simp [repStage]
  rw [h3]
  cases selFlag <;> rfl

/-- C5 amended: a record kept by the query filter has a present
population at least the floor; in particular an absent population fails
the floor test for every `minPopulation`, including 0. -/
theorem filter_data_population (data : List Record) (states : List Str)
    (q : Str) (selRep : Option Str) (selFlag : Option Flag) (minPop : ℕ)
    (r : Record) (h : r ∈ filter_data data states q selRep selFlag minPop) :
    ∃ p, r.population = some p ∧ minPop ≤ p := by
  unfold filter_data at h
  have h1 := mem_of_searchStage (mem_of_repStage (mem_of_flagStage h))
  unfold stateAndPop at h1
  rw [List.mem_filter] at h1
  obtain ⟨-, hb⟩ := h1
  rw [Bool.and_eq_true] at hb
  obtain ⟨-, hpop⟩ := hb
  unfold popOk at hpop
  cases hp : r.population with
  | none =>
    rw [hp] at hpop
    exact Bool.noConfusion hpop
  | some p =>
    rw [hp] at hpop
    rw [decide_eq_true_eq] at hpop
    exact ⟨p, rfl, hpop⟩

/-- A concrete record with a missing population. -/
def recNoPop : Record :=
  ⟨['c'], ['a'], none, none, none, none, none, none, 0, none⟩

/-- C5 counterexample: with `minPopulation = 0`, a record whose
population is absent is dropped by the query filter (its state is
selected and every other filter is inactive), contradicting the claim
that absent-population records still pass a zero floor. -/
theorem popzero_drops_missing :
    recNoPop.population = none ∧
    filter_data [recNoPop] [['a']] [] none none 0 = [] := by
  constructor
  · rfl
  · rfl

/-- A concrete record with a present population. -/
def recBigPop : Record :=
  ⟨['c'], ['a'], none, none, some 50000, none, none, none, 0, none⟩

/-- Witness for the amended C5 at a concrete input. -/
theorem filter_data_population_witness :
    ∃ p, recBigPop.population = some p ∧ 10000 ≤ p :=
  filter_data_population [recBigPop] [['a']] [] none none 10000 recBigPop
    (by rw [show filter_data [recBigPop] [['a']] [] none none 10000 = [recBigPop] from rfl]
        exact List.mem_singleton.mpr rfl)

/-- A concrete record with an absent representative whose city and
state do not contain the letters of `"nan"`. -/
def recNoRepB : Record :=
  ⟨['b'], ['m'], none, none, some 20000, none, none, none, 0, none⟩

/-- C6 counterexample: searching for `"nan"` — a metacharacter-free
pattern, so the literal-substring model applies — keeps a record whose
city and state do not match and whose representative is absent: the
missing representative is stringified as `"nan"` and matches,
contradicting the claim that an absent representative never matches on
that field. -/
theorem search_nan_matches_missing_rep :
    isLiteralPat nanStr = true ∧
    recNoRepB.rep_assigned = none ∧
    containsCI recNoRepB.city nanStr = false ∧
    containsCI recNoRepB.state nanStr = false ∧
    filter_data [recNoRepB] [['m']] nanStr none none 0 = [recNoRepB] := by
  refine ⟨rfl, rfl, ?_, ?_, ?_⟩ <;> rfl

/-- C6 amended: for a non-empty search text free of regex
metacharacters (patterns with metacharacters get regex, not substring,
semantics from `str.contains` and are outside this claim), the search
step keeps exactly the records where city, state, or the stringified
representative contains the text case-insensitively; an absent
representative is stringified as `"nan"`, so it matches on that field
exactly when the text is a case-insensitive substring of `"nan"`. -/
theorem searchStage_iff (q : Str) (d : List Record) (r : Record)
    (hq : ¬ q.isEmpty = true) (hlit : isLiteralPat q = true) :
    (r ∈ searchStage q d ↔ r ∈ d ∧
      (containsCI r.city q = true ∨ containsCI r.state q = true ∨
       containsCI (repAsStr r.rep_assigned) q = true)) ∧
    (r.rep_assigned = none →
      containsCI (repAsStr r.rep_assigned) q = containsCI nanStr q) := by
  constructor
  · unfold searchStage
    rw [if_neg hq, List.mem_filter]
    unfold searchMatch
    rw [Bool.or_eq_true, Bool.or_eq_true]
    tauto
  · intro h
    rw [h]
    rfl

/-- Witness for the amended C6 at a concrete input. -/
theorem searchStage_iff_witness :
    (recNoRepB ∈ searchStage nanStr [recNoRepB] ↔ recNoRepB ∈ [recNoRepB] ∧
      (containsCI recNoRepB.city nanStr = true ∨
       containsCI recNoRepB.state nanStr = true ∨
       containsCI (repAsStr recNoRepB.rep_assigned) nanStr = true)) ∧
    (recNoRepB.rep_assigned = none →
      containsCI (repAsStr recNoRepB.rep_assigned) nanStr =
        containsCI nanStr nanStr) :=
  searchStage_iff nanStr [recNoRepB] recNoRepB (by decide) (by decide)

end GT
